import Mathlib

/-!
Verification of the front-web provisioner (src/deploy.py and
src/app/controller.py) against its natural-language specification.

The Python code is shallowly embedded: pure helpers become Lean functions,
the file system becomes an explicit map from paths to optional contents,
external command execution becomes a trace of commands consumed by an
explicit executor, and `SystemExit` paths become `Except` errors.

Python string primitives are embedded structurally over the character list
of a `String` (`strip`, `replace`, `startswith`, `splitlines`, code-point
comparison), so every definition evaluates by kernel reduction.
-/

namespace FrontWeb

/-! ## Python string primitives -/

/-- `str.strip()`: remove leading and trailing whitespace. -/
def pyStrip (s : String) : String :=
  String.mk (((s.data.dropWhile Char.isWhitespace).reverse.dropWhile
    Char.isWhitespace).reverse)

/-- `str.replace("\r", "")`: delete every carriage return. -/
def removeCR (s : String) : String := String.mk (s.data.filter (· != '\r'))

/-- `str.startswith("#")`. -/
def startsWithHash (s : String) : Bool :=
  match s.data with
  | '#' :: _ => true
  | _ => false

/-- `str.splitlines()` at the character level, splitting on newline. -/
def splitNlChars : List Char → List (List Char)
  | [] => [[]]
  | '\n' :: rest => [] :: splitNlChars rest
  | c :: rest =>
    match splitNlChars rest with
    | [] => [[c]]
    | l :: ls => (c :: l) :: ls

/-- `str.splitlines()`: the lines of a string, split on newline. -/
def splitNl (s : String) : List String := (splitNlChars s.data).map String.mk

/-- Code-point lexicographic comparison of character lists, as Python
compares strings. -/
def lexLe : List Char → List Char → Bool
  | [], _ => true
  | _ :: _, [] => false
  | a :: as, b :: bs =>
    if a.toNat < b.toNat then true
    else if b.toNat < a.toNat then false
    else lexLe as bs

/-- Python string comparison `a <= b` (code-point lexicographic). -/
def strLe (a b : String) : Bool := lexLe a.data b.data

/-! ## Embedding of src/deploy.py -/

/-- The ASCII character class `[A-Za-z0-9]` used by `DOMAIN_RE`. -/
def isAlnum (c : Char) : Bool := c.isUpper || c.isLower || c.isDigit

/-- The ASCII character class `[A-Za-z0-9.-]` used by `DOMAIN_RE`. -/
def isDomainChar (c : Char) : Bool := isAlnum c || c = '.' || c = '-'

/-- Full match of `DOMAIN_RE = ^[A-Za-z0-9][A-Za-z0-9.-]*[A-Za-z0-9]$`:
an alphanumeric first character, any number of alphanumeric/dot/hyphen
characters, and an alphanumeric last character (so at least two characters). -/
def domainReMatch (d : String) : Bool :=
  match d.data with
  | [] => false
  | c :: cs =>
    match cs.getLast? with
    | none => false
    | some lastc => isAlnum c && cs.dropLast.all isDomainChar && isAlnum lastc

/-- The per-domain validity test of `read_domains`:
`"." in d and DOMAIN_RE.match(d)` (deploy.py line 62). -/
def isValidDomain (d : String) : Bool := d.data.contains '.' && domainReMatch d

/-- The raw-line loop of `read_domains` (deploy.py lines 48-53): strip each
line, delete carriage returns, drop blank lines and `#` comments. -/
def deployRawLines (lines : List String) : List String :=
  lines.foldl
    (fun acc line =>
      let s := removeCR (pyStrip line)
      if s == "" || startsWithHash s then acc else acc ++ [s])
    []

/-- The de-dup-and-validate loop of `read_domains` (deploy.py lines 56-65):
`seen` is the set of already-encountered strings; a duplicate is skipped,
an unseen entry is recorded as seen and kept only when valid. -/
def readDomainsAux (seen : List String) : List String → List String
  | [] => []
  | d :: rest =>
    if d ∈ seen then readDomainsAux seen rest
    else if isValidDomain d then d :: readDomainsAux (d :: seen) rest
    else readDomainsAux (d :: seen) rest

/-- De-duplication keeping the first occurrence, the spec's description of
the first phase of validation (used to state the refinement theorems). -/
def dedupFirstAux (seen : List String) : List String → List String
  | [] => []
  | d :: rest =>
    if d ∈ seen then dedupFirstAux seen rest
    else d :: dedupFirstAux (d :: seen) rest

/-- De-duplicate a list keeping the first occurrence of each string. -/
def dedupFirst (l : List String) : List String := dedupFirstAux [] l

/-- The validation part of `read_domains` on an already-extracted raw list
(deploy.py lines 56-69): de-dup, validate, fail when nothing survives. -/
def validateDomains (raw : List String) : Except String (List String) :=
  let out := readDomainsAux [] raw
  if out = [] then Except.error "domain.list has no valid domains"
  else Except.ok out

/-- Whole `read_domains` (deploy.py lines 45-69): missing file is fatal,
then raw-line extraction, then validation. The file system is abstracted
to an existence flag plus the file's lines. -/
def read_domains (fileExists : Bool) (lines : List String) :
    Except String (List String) :=
  if fileExists then validateDomains (deployRawLines lines)
  else Except.error "Missing file: domain.list"

/-- `d[4:] if d.startswith("www.") else d`, at the character-list level. -/
def stripWwwChars : List Char → List Char
  | 'w' :: 'w' :: 'w' :: '.' :: rest => rest
  | l => l

/-- Apex of a domain (deploy.py line 77): strip one literal leading `www.`. -/
def stripWww (d : String) : String := String.mk (stripWwwChars d.data)

/-- `f"www.{apex}"` (deploy.py line 83). -/
def wwwOf (apex : String) : String := "www." ++ apex

/-- Member list of one group (deploy.py lines 80-86): the apex when literally
present in the input list, then `www.<apex>` when literally present. -/
def groupNames (present : List String) (apex : String) : List String :=
  (if apex ∈ present then [apex] else [])
    ++ (if wwwOf apex ∈ present then [wwwOf apex] else [])

/-- `group_domains` (deploy.py lines 71-89): one group per distinct apex,
members looked up in the input list, groups sorted by apex string. -/
def group_domains (domains : List String) : List (String × List String) :=
  let apexes := dedupFirst (domains.map stripWww)
  (apexes.insertionSort (fun a b => strLe a b = true)).map
    (fun apex => (apex, groupNames domains apex))

example : group_domains ["a.com", "www.a.com", "b.com"] =
    [("a.com", ["a.com", "www.a.com"]), ("b.com", ["b.com"])] := by decide

example : group_domains ["www.c.com"] = [("c.com", ["www.c.com"])] := by decide

example : isValidDomain "not a domain" = false := by decide
example : isValidDomain "-bad.com" = false := by decide
example : isValidDomain "noTLD" = false := by decide
example : isValidDomain "a.com" = true := by decide
example : deployRawLines ["  a.com  ", "", "# c", "b.com"] = ["a.com", "b.com"] := by
  decide

/-! ## Embedding of src/app/controller.py -/

/-- Abstract file system: a path maps to the content of the regular file
there, or to `none` when no regular file exists at that path. -/
abbrev FS := String → Option String

/-- `NGINX_SITES_DIR` (controller.py line 6). -/
def NGINX_SITES_DIR : String := "/app/nginx-sites"

/-- `NGINX_HTTP_CONF` (controller.py line 7). -/
def NGINX_HTTP_CONF : String := "00-front-web-http.conf"

/-- `os.path.join(NGINX_SITES_DIR, NGINX_HTTP_CONF)`: the single fixed
output path of the renderer. -/
def confPath : String := NGINX_SITES_DIR ++ "/" ++ NGINX_HTTP_CONF

/-- `conf_path + ".tmp"` (controller.py line 117). -/
def tmpPath : String := confPath ++ ".tmp"

/-- `_first_existing_file` (controller.py lines 10-14): the first candidate
path that is a regular file of positive size. -/
def first_existing_file (fs : FS) : List String → Option String
  | [] => none
  | p :: rest =>
    match fs p with
    | some c => if c != "" then some p else first_existing_file fs rest
    | none => first_existing_file fs rest

/-- The domain-list candidate paths (controller.py lines 26-31). -/
def domain_candidates (cwd : String) : List String :=
  ["/app/app/domain.list", "/app/domain.list",
   cwd ++ "/app/domain.list", cwd ++ "/domain.list"]

/-- The proxy-target candidate paths (controller.py lines 32-37). -/
def proxy_candidates (cwd : String) : List String :=
  ["/app/app/proxy_pass", "/app/proxy_pass",
   cwd ++ "/app/proxy_pass", cwd ++ "/proxy_pass"]

/-- `_read_text_file` (controller.py lines 17-19); only called on paths the
candidate search has just found to exist. -/
def readText (fs : FS) (p : String) : String := (fs p).getD ""

/-- The line filter shared by both parse loops (controller.py lines 61-62
and 72-73): keep a stripped line unless it is blank or a `#` comment. -/
def keepLine (s : String) : Bool := !(s == "" || startsWithHash s)

/-- The domain parse loop of `load_configs` (controller.py lines 59-64):
strip each line, append it when kept. -/
def parseDomains (lines : List String) : List String :=
  lines.foldl
    (fun acc line =>
      let s := pyStrip line
      if keepLine s then acc ++ [s] else acc)
    []

/-- The proxy parse loop of `load_configs` (controller.py lines 70-76):
the first kept stripped line, `""` when none exists. -/
def parseProxy : List String → String
  | [] => ""
  | line :: rest =>
    let s := pyStrip line
    if keepLine s then s else parseProxy rest

/-- `load_configs` (controller.py lines 22-82): locate both input files,
parse the domain list and the proxy target, exit on any failure. -/
def load_configs (fs : FS) (cwd : String) :
    Except String (List String × String × String × String) :=
  match first_existing_file fs (domain_candidates cwd) with
  | none => Except.error "domain.list not found or empty"
  | some domain_path =>
    match first_existing_file fs (proxy_candidates cwd) with
    | none => Except.error "proxy_pass not found or empty"
    | some proxy_path =>
      let domains := parseDomains (splitNl (readText fs domain_path))
      if domains = [] then Except.error "contains no valid domains"
      else
        let proxy_pass := parseProxy (splitNl (readText fs proxy_path))
        if proxy_pass == "" then Except.error "contains no valid proxy_pass line"
        else Except.ok (domains, proxy_pass, domain_path, proxy_path)

/-- The document rendered by `write_http_vhost` (controller.py lines 93-115):
the f-string template with `server_names = " ".join(domains)` and the proxy
target interpolated. -/
def write_http_vhost_content (domains : List String) (proxy_pass : String) :
    String :=
  "server \x7b\n    listen 80;\n    server_name "
    ++ String.intercalate " " domains
    ++ ";\n\n    location /.well-known/acme-challenge/ \x7b\n        root /var/www/certbot;\n    \x7d\n\n    location / \x7b\n        proxy_pass "
    ++ proxy_pass
    ++ ";\n        proxy_read_timeout    90;\n        proxy_connect_timeout 90;\n        proxy_set_header Host $http_host;\n        proxy_set_header X-Forwarded-For $proxy_add_x_forwarded_for;\n        proxy_set_header X-Real-IP $remote_addr;\n        proxy_http_version 1.1;\n    \x7d\n\x7d\n"

/-- Overwrite one path of the file system (a completed `write`). -/
def fsWrite (fs : FS) (p c : String) : FS :=
  fun q => if q = p then some c else fs q

/-- `os.replace src dst`: atomic rename; afterwards `dst` holds what `src`
held and `src` is gone. -/
def fsRename (fs : FS) (src dst : String) : FS :=
  fun q => if q = dst then fs src else if q = src then none else fs q

/-- The observable file-system states during `write_http_vhost` (controller.py
lines 117-120): the state before, the state after every partial or complete
write of the temporary file, and the state after the atomic rename. -/
def write_http_vhost_states (fs : FS) (domains : List String)
    (proxy_pass : String) : List FS :=
  fs :: (((List.range ((write_http_vhost_content domains proxy_pass).data.length + 1)).map
      (fun k => fsWrite fs tmpPath
        (String.mk ((write_http_vhost_content domains proxy_pass).data.take k))))
    ++ [fsRename
          (fsWrite fs tmpPath (write_http_vhost_content domains proxy_pass))
          tmpPath confPath])

/-- `WatchState` (spec section 3): the in-memory state of the watch loop.
`rendered` is the content last written to the output path. -/
structure WatchState where
  last_domain_mtime : Int
  last_proxy_mtime : Int
  domains : List String
  proxy_pass : String
  rendered : String
deriving DecidableEq, Repr

/-- The environment one iteration of the watch loop observes: the file
system, the working directory, and the modification time of each path
(`mtime`, controller.py lines 123-127, returns 0.0 for a missing path —
the environment function is total just as `mtime` is). -/
structure WatchEnv where
  fs : FS
  cwd : String
  mtimeOf : String → Int

/-- One iteration of the watch loop body (controller.py lines 148-167):
re-stat both paths; when either differs from the baseline, attempt a
reload; a failed reload (`SystemExit` caught) leaves the state unchanged,
a successful one adopts the new domains, target, render and baseline. -/
def watchStep (env : WatchEnv) (domain_path proxy_path : String)
    (st : WatchState) : WatchState :=
  let new_domain_mtime := env.mtimeOf domain_path
  let new_proxy_mtime := env.mtimeOf proxy_path
  if new_domain_mtime ≠ st.last_domain_mtime ∨ new_proxy_mtime ≠ st.last_proxy_mtime then
    match load_configs env.fs env.cwd with
    | Except.error _ => st
    | Except.ok (domains, proxy_pass, _, _) =>
      { last_domain_mtime := new_domain_mtime
        last_proxy_mtime := new_proxy_mtime
        domains := domains
        proxy_pass := proxy_pass
        rendered := write_http_vhost_content domains proxy_pass }
  else st

/-- `n` iterations of the watch loop. Totality of this function is the
embedding of the loop never exiting the process. -/
def watchRun (env : WatchEnv) (domain_path proxy_path : String) :
    Nat → WatchState → WatchState
  | 0, st => st
  | n + 1, st => watchRun env domain_path proxy_path n
      (watchStep env domain_path proxy_path st)

/-! ## Embedding of the orchestrator (`main` of src/deploy.py)

External process invocation is embedded as a trace: `main` determines a
sequence of commands; an executor consumes it, stopping at the first
checked command whose exit status is non-zero (the `CalledProcessError`
caught at deploy.py lines 206-213, re-raised as the process exit status).
The `curl` of `get_public_ipv4` (line 93) is run without `check=True`, so
it is recorded unchecked. -/

/-- The external commands the orchestrator can invoke. -/
inductive Cmd where
  | composeUp : Cmd
  | curlPublicIp : Cmd
  | certbot (certname : String) (names : List String) (staging : Bool)
      (email : String) (force : Bool) : Cmd
  | nginxTest : Cmd
  | nginxReload : Cmd
deriving DecidableEq, Repr

/-- The environment of one orchestrator run: input files, DNS and public-IP
answers, the external certificate store, the exit status of every command,
and the environment-driven toggles (deploy.py lines 147-152). -/
structure OrchEnv where
  proxyFileExists : Bool
  domainFileExists : Bool
  domainFileLines : List String
  cmdExit : Cmd → Nat
  curlExit : Nat
  pubIp : String
  resolveA : String → String
  certExists : String → Bool
  email : String
  doStaging : Bool
  doProd : Bool
  forceProd : Bool
  checkA : Bool

/-- The skip test of the DNS gate (deploy.py line 180):
`not a or not pub4 or a != pub4`. -/
def dnsSkip (a pub : String) : Bool := a == "" || pub == "" || a != pub

/-- The staging certbot invocation for a group (deploy.py line 192):
name `<apex>-staging`, staging endpoint, never forced. -/
def certbotStaging (env : OrchEnv) (apex : String) (names : List String) : Cmd :=
  Cmd.certbot (apex ++ "-staging") names true env.email false

/-- The production certbot invocation for a group (deploy.py line 196):
name `<apex>`, production endpoint, forced per `FORCE_PROD`. -/
def certbotProd (env : OrchEnv) (apex : String) (names : List String) : Cmd :=
  Cmd.certbot apex names false env.email env.forceProd

/-- The issuance commands of one group once the DNS gate has passed
(deploy.py lines 184-198): staging unless the record exists, then
production when enabled. -/
def issuanceCmds (env : OrchEnv) (apex : String) (names : List String) :
    List Cmd :=
  (if env.doStaging && !env.certExists (apex ++ "-staging")
   then [certbotStaging env apex names] else [])
    ++ (if env.doProd then [certbotProd env apex names] else [])

/-- All commands one group contributes to the run (deploy.py lines 172-198):
nothing when the member list is empty or the DNS gate skips the group. -/
def groupCmds (env : OrchEnv) (apex : String) (names : List String) :
    List Cmd :=
  if names = [] then []
  else if env.checkA && dnsSkip (env.resolveA apex) env.pubIp then []
  else issuanceCmds env apex names

/-- The checked commands of the whole run after `read_domains` succeeded:
every group's commands in group order, then `nginx -t`, then
`nginx -s reload` (deploy.py lines 172-202). -/
def orchCmds (env : OrchEnv) (domains : List String) : List Cmd :=
  ((group_domains domains).flatMap (fun g => groupCmds env g.1 g.2))
    ++ [Cmd.nginxTest, Cmd.nginxReload]

/-- Run a list of checked commands in order: the trace of issued commands
(tagged checked), and the exit status of the first failure, if any. -/
def execAll (env : OrchEnv) : List Cmd → List (Cmd × Bool) × Option Nat
  | [] => ([], none)
  | c :: rest =>
    if env.cmdExit c = 0 then
      ((c, true) :: (execAll env rest).1, (execAll env rest).2)
    else ([(c, true)], some (env.cmdExit c))

/-- How one orchestrator run ends: normally, via `SystemExit` (exit code 1),
or via a failed checked command (exit code = that command's status). -/
inductive Outcome where
  | done : Outcome
  | sysExit (msg : String) : Outcome
  | cmdFailed (code : Nat) : Outcome
deriving DecidableEq, Repr

/-- One full orchestrator run (`main` plus the `__main__` handler,
deploy.py lines 144-213): the trace of external command invocations, each
tagged with whether its exit status is checked, and the outcome. -/
def mainRun (env : OrchEnv) : List (Cmd × Bool) × Outcome :=
  if env.proxyFileExists = false then ([], Outcome.sysExit "Missing file: proxy_pass")
  else if env.cmdExit Cmd.composeUp ≠ 0 then
    ([(Cmd.composeUp, true)], Outcome.cmdFailed (env.cmdExit Cmd.composeUp))
  else
    match read_domains env.domainFileExists env.domainFileLines with
    | Except.error msg =>
      ([(Cmd.composeUp, true), (Cmd.curlPublicIp, false)], Outcome.sysExit msg)
    | Except.ok domains =>
      ([(Cmd.composeUp, true), (Cmd.curlPublicIp, false)]
          ++ (execAll env (orchCmds env domains)).1,
       match (execAll env (orchCmds env domains)).2 with
       | none => Outcome.done
       | some code => Outcome.cmdFailed code)

/-! ## Embedding of `cert_exists` and the staging-issuance step -/

/-- The per-name artifact path under the certbot live directory. -/
def livePath (certname file : String) : String :=
  "data/certbot/conf/live/" ++ certname ++ "/" ++ file

/-- `cert_exists` (deploy.py lines 112-114): both artifact files present. -/
def cert_exists (fs : FS) (certname : String) : Bool :=
  (fs (livePath certname "fullchain.pem")).isSome
    && (fs (livePath certname "privkey.pem")).isSome

/-- Modelled from the spec: on a successful issuance the external ACME
client (not part of this repository) creates the certificate record, i.e.
the two artifact files under the per-name live directory (spec section 3,
CertificateRecord). -/
def issueRecord (fs : FS) (certname : String) : FS :=
  fun p =>
    if p = livePath certname "fullchain.pem" ∨ p = livePath certname "privkey.pem"
    then some "" else fs p

/-- One run of the staging-issuance step for an apex (deploy.py lines
187-192): whether the ACME client was invoked, and the external certificate
store afterwards. -/
def stagingStep (fs : FS) (apex : String) : Bool × FS :=
  if cert_exists fs (apex ++ "-staging") then (false, fs)
  else (true, issueRecord fs (apex ++ "-staging"))

/-- Number of ACME client invocations across `n` consecutive runs of the
staging-issuance step for the same apex. -/
def stagingInvocations (fs : FS) (apex : String) : Nat → Nat
  | 0 => 0
  | n + 1 =>
    (if (stagingStep fs apex).1 then 1 else 0)
      + stagingInvocations (stagingStep fs apex).2 apex n

/-! ## Helper lemmas -/

theorem lexLe_total (as : List Char) : ∀ bs, lexLe as bs = true ∨ lexLe bs as = true := by
  induction as with
  | nil => intro bs; left; rfl
  | cons a as ih =>
    intro bs
    cases bs with
    | nil => right; rfl
    | cons b bs =>
      by_cases h1 : a.toNat < b.toNat
      · left; simp [lexLe, h1]
      · by_cases h2 : b.toNat < a.toNat
        · right; simp [lexLe, h2]
        · rcases ih bs with h | h
          · left; simp [lexLe, h1, h2, h]
          · right; simp [lexLe, h1, h2, h]

theorem lexLe_trans (as : List Char) :
    ∀ bs cs, lexLe as bs = true → lexLe bs cs = true → lexLe as cs = true := by
  induction as with
  | nil => intro bs cs _ _; rfl
  | cons a as ih =>
    intro bs cs h1 h2
    cases bs with
    | nil => simp [lexLe] at h1
    | cons b bs =>
      cases cs with
      | nil => simp [lexLe] at h2
      | cons c cs =>
        simp only [lexLe] at h1 h2 ⊢
        by_cases hab : a.toNat < b.toNat
        · by_cases hbc : b.toNat < c.toNat
          · simp [Nat.lt_trans hab hbc]
          · by_cases hcb : c.toNat < b.toNat
            · simp [hbc, hcb] at h2
            · have hbceq : b.toNat = c.toNat :=
                Nat.le_antisymm (Nat.not_lt.mp hcb) (Nat.not_lt.mp hbc)
              have : a.toNat < c.toNat := hbceq ▸ hab
              simp [this]
        · by_cases hba : b.toNat < a.toNat
          · simp [hab, hba] at h1
          · have habeq : a.toNat = b.toNat :=
              Nat.le_antisymm (Nat.not_lt.mp hba) (Nat.not_lt.mp hab)
            rw [if_neg hab, if_neg hba] at h1
            by_cases hbc : b.toNat < c.toNat
            · have : a.toNat < c.toNat := habeq ▸ hbc
              simp [this]
            · by_cases hcb : c.toNat < b.toNat
              · simp [hbc, hcb] at h2
              · have hbceq : b.toNat = c.toNat :=
                  Nat.le_antisymm (Nat.not_lt.mp hcb) (Nat.not_lt.mp hbc)
                rw [if_neg hbc, if_neg hcb] at h2
                have hac : ¬ a.toNat < c.toNat := by omega
                have hca : ¬ c.toNat < a.toNat := by omega
                rw [if_neg hac, if_neg hca]
                exact ih bs cs h1 h2

instance : IsTotal String (fun a b => strLe a b = true) :=
  ⟨fun a b => lexLe_total a.data b.data⟩

instance : IsTrans String (fun a b => strLe a b = true) :=
  ⟨fun a b c h1 h2 => lexLe_trans a.data b.data c.data h1 h2⟩

theorem mem_dedupFirstAux (x : String) (l : List String) :
    ∀ seen, x ∈ dedupFirstAux seen l ↔ (x ∈ l ∧ x ∉ seen) := by
  induction l with
  | nil => intro seen; simp [dedupFirstAux]
  | cons d rest ih =>
    intro seen
    by_cases h : d ∈ seen
    · simp only [dedupFirstAux, if_pos h, ih, List.mem_cons]
      constructor
      · rintro ⟨hx, hns⟩; exact ⟨Or.inr hx, hns⟩
      · rintro ⟨hor, hns⟩
        rcases hor with rfl | hx
        · exact absurd h hns
        · exact ⟨hx, hns⟩
    · simp only [dedupFirstAux, if_neg h, List.mem_cons, ih]
      constructor
      · rintro (rfl | ⟨hx, hns⟩)
        · exact ⟨Or.inl rfl, h⟩
        · exact ⟨Or.inr hx, fun hs => hns (Or.inr hs)⟩
      · rintro ⟨hor, hns⟩
        rcases hor with rfl | hx
        · exact Or.inl rfl
        · by_cases hxd : x = d
          · exact Or.inl hxd
          · refine Or.inr ⟨hx, ?_⟩
            simp [List.mem_cons, hxd, hns]

theorem nodup_dedupFirstAux (l : List String) :
    ∀ seen, (dedupFirstAux seen l).Nodup := by
  induction l with
  | nil => intro seen; simp [dedupFirstAux]
  | cons d rest ih =>
    intro seen
    by_cases h : d ∈ seen
    · simp only [dedupFirstAux, if_pos h]; exact ih seen
    · simp only [dedupFirstAux, if_neg h]
      rw [List.nodup_cons]
      refine ⟨fun hmem => ?_, ih (d :: seen)⟩
      rw [mem_dedupFirstAux] at hmem
      exact hmem.2 (List.mem_cons_self d seen)

theorem mem_dedupFirst (x : String) (l : List String) :
    x ∈ dedupFirst l ↔ x ∈ l := by
  rw [dedupFirst, mem_dedupFirstAux]
  simp

theorem readDomainsAux_eq (l : List String) :
    ∀ seen, readDomainsAux seen l = (dedupFirstAux seen l).filter isValidDomain := by
  induction l with
  | nil => intro seen; rfl
  | cons d rest ih =>
    intro seen
    by_cases h : d ∈ seen
    · simp only [readDomainsAux, dedupFirstAux, if_pos h]; exact ih seen
    · by_cases hv : isValidDomain d
      · simp only [readDomainsAux, dedupFirstAux, if_neg h, if_pos hv,
          List.filter_cons, hv, ite_true, ih]
      · simp only [readDomainsAux, dedupFirstAux, if_neg h, if_neg hv,
          List.filter_cons, hv, Bool.false_eq_true, ite_false, ih]

theorem group_domains_keys (ds : List String) :
    (group_domains ds).map Prod.fst =
      (dedupFirst (ds.map stripWww)).insertionSort (fun a b => strLe a b = true) := by
  simp [group_domains, List.map_map, Function.comp_def]

theorem stripWwwChars_cases (l : List Char) :
    stripWwwChars l = l ∨ l = 'w' :: 'w' :: 'w' :: '.' :: stripWwwChars l := by
  unfold stripWwwChars
  split
  · right; rfl
  · left; rfl

theorem stripWww_cases (d : String) :
    stripWww d = d ∨ d = "www." ++ stripWww d := by
  rcases stripWwwChars_cases d.data with h | h
  · left
    show String.mk (stripWwwChars d.data) = d
    rw [h]
  · right
    apply String.ext
    rw [String.data_append]
    exact h

/-! ## Claim theorems -/

/-- C6: for every raw domain list, the validator output equals the input
de-duplicated keeping the first occurrence in original order and then
filtered by the hostname pattern (alphanumeric-bounded, dots/hyphens/
alphanumerics interior, at least one dot); it fails exactly when zero
entries survive; and `"not a domain"`, `"-bad.com"` and `"noTLD"` are all
rejected by the pattern. -/
theorem c6_validator_dedups_then_filters (raw : List String) :
    validateDomains raw =
      (if (dedupFirst raw).filter isValidDomain = []
       then Except.error "domain.list has no valid domains"
       else Except.ok ((dedupFirst raw).filter isValidDomain)) ∧
    isValidDomain "not a domain" = false ∧
    isValidDomain "-bad.com" = false ∧
    isValidDomain "noTLD" = false := by
  refine ⟨?_, by decide, by decide, by decide⟩
  simp only [validateDomains, dedupFirst, readDomainsAux_eq]

/-- C2: for every domain list, `group_domains` yields one group per distinct
apex (literal `www.` stripped once), with keys sorted lexicographically by
code point and duplicate-free, each member list holding the apex exactly
when literally present followed by `www.<apex>` exactly when literally
present; including the spec's two concrete grouping examples. -/
theorem c2_group_domains_correct (ds : List String) :
    ((group_domains ds).map Prod.fst).Sorted (fun a b => strLe a b = true) ∧
    ((group_domains ds).map Prod.fst).Nodup ∧
    (∀ a, a ∈ (group_domains ds).map Prod.fst ↔ ∃ d ∈ ds, stripWww d = a) ∧
    (∀ a ns, (a, ns) ∈ group_domains ds →
      ns = (if a ∈ ds then [a] else [])
        ++ (if ("www." ++ a) ∈ ds then ["www." ++ a] else [])) ∧
    group_domains ["a.com", "www.a.com", "b.com"] =
      [("a.com", ["a.com", "www.a.com"]), ("b.com", ["b.com"])] ∧
    group_domains ["www.c.com"] = [("c.com", ["www.c.com"])] := by
  refine ⟨?_, ?_, ?_, ?_, by decide, by decide⟩
  · rw [group_domains_keys]
    exact List.sorted_insertionSort (r := fun a b => strLe a b = true) _
  · rw [group_domains_keys]
    exact (List.perm_insertionSort (r := fun a b => strLe a b = true) _).nodup_iff.mpr
      (nodup_dedupFirstAux _ [])
  · intro a
    rw [group_domains_keys, List.mem_insertionSort, mem_dedupFirst, List.mem_map]
  · intro a ns h
    simp only [group_domains, List.mem_map] at h
    obtain ⟨apex, -, heq⟩ := h
    rw [Prod.mk.injEq] at heq
    obtain ⟨rfl, rfl⟩ := heq
    simp [groupNames, wwwOf]

/-- C10: every group produced by `group_domains` has a non-empty member
list, so the orchestrator's empty-member-list skip branch (deploy.py lines
173-175) is never taken. -/
theorem c10_groups_nonempty (ds : List String) :
    ∀ g ∈ group_domains ds, g.2 ≠ [] := by
  intro g hg
  simp only [group_domains, List.mem_map] at hg
  obtain ⟨apex, hapex, rfl⟩ := hg
  rw [List.mem_insertionSort, mem_dedupFirst, List.mem_map] at hapex
  obtain ⟨d, hd, rfl⟩ := hapex
  rcases stripWww_cases d with h | h
  · simp only [groupNames, h, hd, if_pos, ne_eq, List.append_eq_nil]
    simp [h, hd]
  · have hw : wwwOf (stripWww d) ∈ ds := by rw [wwwOf, ← h]; exact hd
    simp [groupNames, hw, List.append_eq_nil]

/-- Witness for C10 at a concrete input. -/
theorem c10_groups_nonempty_witness :
    (("a.com", ["a.com"]) : String × List String).2 ≠ [] :=
  c10_groups_nonempty ["a.com"] ("a.com", ["a.com"]) (by decide)

/-! ## Spec-side descriptions (section 4.1 of the spec, for refinement) -/

/-- Following the spec's words: the first existing, non-empty file among the
candidate locations, in preference order. -/
def specFirstFile (fs : FS) (cands : List String) : Option String :=
  cands.find? (fun p => (fs p).getD "" != "")

/-- Following the spec's words: the whitespace-stripped, non-blank,
non-comment lines of a file's content, in file order. -/
def specLines (content : String) : List String :=
  ((splitNl content).map pyStrip).filter keepLine

/-- Following the spec's words: the first remaining line of the proxy-target
file, `""` when none remains. -/
def specProxyTarget (content : String) : String := (specLines content).headD ""

theorem first_existing_file_eq (fs : FS) (cands : List String) :
    first_existing_file fs cands = specFirstFile fs cands := by
  induction cands with
  | nil => rfl
  | cons p rest ih =>
    simp only [first_existing_file, specFirstFile, List.find?]
    cases h : fs p with
    | none =>
      simp only [Option.getD_none]
      rw [show (("" : String) != "") = false from rfl]
      exact ih
    | some c =>
      cases hc : c != "" with
      | true => simp [Option.getD_some, hc]
      | false => simp [Option.getD_some, hc, ih, specFirstFile]

theorem parseDomains_eq_aux (lines : List String) :
    ∀ acc, lines.foldl
        (fun acc line =>
          let s := pyStrip line
          if keepLine s then acc ++ [s] else acc) acc
      = acc ++ ((lines.map pyStrip).filter keepLine) := by
  induction lines with
  | nil => intro acc; simp
  | cons l rest ih =>
    intro acc
    simp only [List.foldl_cons, List.map_cons, List.filter_cons]
    by_cases h : keepLine (pyStrip l)
    · simp only [h, if_true, ih, List.append_assoc, List.singleton_append]
    · simp only [h, Bool.false_eq_true, if_false, ih]

theorem parseDomains_eq (lines : List String) :
    parseDomains lines = (lines.map pyStrip).filter keepLine := by
  simpa using parseDomains_eq_aux lines []

theorem parseProxy_eq (lines : List String) :
    parseProxy lines = ((lines.map pyStrip).filter keepLine).headD "" := by
  induction lines with
  | nil => rfl
  | cons l rest ih =>
    simp only [parseProxy, List.map_cons, List.filter_cons]
    by_cases h : keepLine (pyStrip l)
    · simp [h]
    · simp [h, ih]

/-- C5: `load_configs` locates, for each of the two inputs, the first
existing non-empty candidate file; the domain result is exactly the
whitespace-stripped non-blank non-comment lines of the domain file in file
order; the proxy target is exactly the first such line of the proxy file;
and the run errors out precisely when a file cannot be located, zero domain
lines remain, or no proxy line remains. -/
theorem c5_load_configs_spec (fs : FS) (cwd : String) :
    load_configs fs cwd =
      match specFirstFile fs (domain_candidates cwd),
            specFirstFile fs (proxy_candidates cwd) with
      | none, _ => Except.error "domain.list not found or empty"
      | some _, none => Except.error "proxy_pass not found or empty"
      | some dp, some pp =>
        if specLines (readText fs dp) = []
        then Except.error "contains no valid domains"
        else if specProxyTarget (readText fs pp) == ""
        then Except.error "contains no valid proxy_pass line"
        else Except.ok (specLines (readText fs dp),
                        specProxyTarget (readText fs pp), dp, pp) := by
  unfold load_configs
  rw [first_existing_file_eq, first_existing_file_eq]
  cases specFirstFile fs (domain_candidates cwd) with
  | none => rfl
  | some dp =>
    cases specFirstFile fs (proxy_candidates cwd) with
    | none => rfl
    | some pp =>
      simp only [parseDomains_eq, parseProxy_eq, specLines, specProxyTarget]

/-- C1: when a reload attempt fails (`load_configs` signals any of its
errors), one iteration of the watch loop leaves the entire watch state —
baseline modification timestamps, last loaded domains and proxy target,
and the previously rendered vhost content — unchanged, and any number of
further iterations still leaves it unchanged; the loop being a total
function embeds that the process does not exit. -/
theorem c1_failed_reload_keeps_state (env : WatchEnv)
    (domain_path proxy_path : String) (st : WatchState) (msg : String)
    (h : load_configs env.fs env.cwd = Except.error msg) :
    watchStep env domain_path proxy_path st = st ∧
    (watchStep env domain_path proxy_path st).rendered = st.rendered ∧
    ∀ n, watchRun env domain_path proxy_path n st = st := by
  have hstep : watchStep env domain_path proxy_path st = st := by
    unfold watchStep
    rw [h]
    split
    · simp [ite_self]
    · rename_i heq
      simp at heq
  refine ⟨hstep, by rw [hstep], ?_⟩
  intro n
  induction n with
  | zero => rfl
  | succ n ih => rw [watchRun, hstep, ih]

/-- Witness for C1: a file system with no candidate file makes every reload
fail, and a concrete state survives an iteration unchanged. -/
theorem c1_failed_reload_keeps_state_witness :
    watchStep ⟨fun _ => none, "/w", fun _ => 1⟩ "d" "p" ⟨0, 0, [], "", ""⟩ =
      ⟨0, 0, [], "", ""⟩ ∧
    (watchStep ⟨fun _ => none, "/w", fun _ => 1⟩ "d" "p" ⟨0, 0, [], "", ""⟩).rendered =
      (⟨0, 0, [], "", ""⟩ : WatchState).rendered ∧
    ∀ n, watchRun ⟨fun _ => none, "/w", fun _ => 1⟩ "d" "p" n ⟨0, 0, [], "", ""⟩ =
      ⟨0, 0, [], "", ""⟩ :=
  c1_failed_reload_keeps_state ⟨fun _ => none, "/w", fun _ => 1⟩ "d" "p"
    ⟨0, 0, [], "", ""⟩ "domain.list not found or empty" rfl

/-- C3: at every observable file-system state during a render — before,
during any partial or complete write of the temporary file, and after the
atomic rename — the output path holds either exactly what it held before
or the new complete document. -/
theorem c3_render_atomic (fs : FS) (domains : List String) (proxy_pass : String) :
    ∀ s ∈ write_http_vhost_states fs domains proxy_pass,
      s confPath = fs confPath ∨
      s confPath = some (write_http_vhost_content domains proxy_pass) := by
  intro s hs
  unfold write_http_vhost_states at hs
  rw [List.mem_cons, List.mem_append] at hs
  have hne : confPath ≠ tmpPath := by decide
  rcases hs with rfl | hmid | hlast
  · exact Or.inl rfl
  · rw [List.mem_map] at hmid
    obtain ⟨k, -, rfl⟩ := hmid
    left
    simp [fsWrite, hne]
  · rw [List.mem_singleton] at hlast
    subst hlast
    right
    have htc : tmpPath ≠ confPath := by decide
    simp [fsRename, fsWrite, htc]

/-- Witness for C3: the state before the write of a concrete render trivially
satisfies the disjunction. -/
theorem c3_render_atomic_witness :
    (fun (_ : String) => (none : Option String)) confPath =
      (fun (_ : String) => (none : Option String)) confPath ∨
    (fun (_ : String) => (none : Option String)) confPath =
      some (write_http_vhost_content ["a.com"] "http://x:80") :=
  c3_render_atomic (fun _ => none) ["a.com"] "http://x:80" (fun _ => none)
    (by unfold write_http_vhost_states; exact List.mem_cons_self _ _)

/-- C9: the rendered vhost document contains a `server_name` directive
listing exactly the given domains, space-joined, in the given input order. -/
theorem c9_server_name_order (domains : List String) (proxy_pass : String) :
    ∃ pre suf, write_http_vhost_content domains proxy_pass =
      pre ++ ("server_name " ++ String.intercalate " " domains ++ ";") ++ suf := by
  refine ⟨"server \x7b\n    listen 80;\n    ",
    "\n\n    location /.well-known/acme-challenge/ \x7b\n        root /var/www/certbot;\n    \x7d\n\n    location / \x7b\n        proxy_pass "
      ++ proxy_pass
      ++ ";\n        proxy_read_timeout    90;\n        proxy_connect_timeout 90;\n        proxy_set_header Host $http_host;\n        proxy_set_header X-Forwarded-For $proxy_add_x_forwarded_for;\n        proxy_set_header X-Real-IP $remote_addr;\n        proxy_http_version 1.1;\n    \x7d\n\x7d\n", ?_⟩
  unfold write_http_vhost_content
  rw [show ("server \x7b\n    listen 80;\n    server_name " : String) =
    "server \x7b\n    listen 80;\n    " ++ "server_name " from rfl]
  rw [show (";\n\n    location /.well-known/acme-challenge/ \x7b\n        root /var/www/certbot;\n    \x7d\n\n    location / \x7b\n        proxy_pass " : String) =
    ";" ++ "\n\n    location /.well-known/acme-challenge/ \x7b\n        root /var/www/certbot;\n    \x7d\n\n    location / \x7b\n        proxy_pass " from rfl]
  simp only [String.append_assoc]

/-! ## Lemmas about the orchestrator executor -/

theorem execAll_checked_fail (env : OrchEnv) :
    ∀ (cmds : List Cmd) (c : Cmd), (c, true) ∈ (execAll env cmds).1 →
      env.cmdExit c ≠ 0 → (execAll env cmds).2 = some (env.cmdExit c) := by
  intro cmds
  induction cmds with
  | nil => intro c hc; simp [execAll] at hc
  | cons d rest ih =>
    intro c hc hne
    by_cases hd : env.cmdExit d = 0
    · simp only [execAll, if_pos hd] at hc ⊢
      rcases List.mem_cons.mp hc with heq | hmem
      · rw [Prod.mk.injEq] at heq
        obtain ⟨rfl, -⟩ := heq
        exact absurd hd hne
      · exact ih c hmem hne
    · simp only [execAll, if_neg hd] at hc ⊢
      rw [List.mem_singleton, Prod.mk.injEq] at hc
      obtain ⟨rfl, -⟩ := hc
      rfl

theorem execAll_success_trace (env : OrchEnv) :
    ∀ cmds : List Cmd, (execAll env cmds).2 = none →
      (execAll env cmds).1 = cmds.map (fun c => (c, true)) := by
  intro cmds
  induction cmds with
  | nil => intro _; rfl
  | cons d rest ih =>
    intro h
    by_cases hd : env.cmdExit d = 0
    · simp only [execAll, if_pos hd] at h ⊢
      rw [List.map_cons, ih h]
    · simp only [execAll, if_neg hd] at h
      simp at h

theorem execAll_trace_take (env : OrchEnv) :
    ∀ cmds : List Cmd, ∃ n,
      (execAll env cmds).1 = (cmds.take n).map (fun c => (c, true)) := by
  intro cmds
  induction cmds with
  | nil => exact ⟨0, rfl⟩
  | cons d rest ih =>
    by_cases hd : env.cmdExit d = 0
    · obtain ⟨n, hn⟩ := ih
      exact ⟨n + 1, by simp only [execAll, if_pos hd, List.take_succ_cons,
        List.map_cons, hn]⟩
    · exact ⟨1, by simp [execAll, if_neg hd]⟩

theorem groupCmds_only_certbot (env : OrchEnv) (apex : String)
    (names : List String) :
    ∀ c ∈ groupCmds env apex names,
      c ≠ Cmd.nginxTest ∧ c ≠ Cmd.nginxReload := by
  intro c hc
  unfold groupCmds at hc
  split at hc
  · exact absurd hc (List.not_mem_nil c)
  · split at hc
    · exact absurd hc (List.not_mem_nil c)
    · unfold issuanceCmds at hc
      rw [List.mem_append] at hc
      rcases hc with hc | hc <;> split at hc <;>
        first
        | exact absurd hc (List.not_mem_nil c)
        | · rw [List.mem_singleton] at hc
            subst hc
            exact ⟨by simp [certbotStaging, certbotProd],
                   by simp [certbotStaging, certbotProd]⟩

theorem orch_map_count (env : OrchEnv) (domains : List String) (c : Cmd)
    (hc : c = Cmd.nginxTest ∨ c = Cmd.nginxReload) :
    ((orchCmds env domains).map (fun d => (d, true))).count (c, true) = 1 := by
  unfold orchCmds
  rw [List.map_append, List.count_append]
  have h0 : (((group_domains domains).flatMap fun g => groupCmds env g.1 g.2).map
      (fun d => (d, true))).count (c, true) = 0 := by
    rw [List.count_eq_zero]
    intro hmem
    rw [List.mem_map] at hmem
    obtain ⟨d, hd, heq⟩ := hmem
    rw [Prod.mk.injEq] at heq
    obtain ⟨rfl, -⟩ := heq
    rw [List.mem_flatMap] at hd
    obtain ⟨g, hg, hdg⟩ := hd
    have hshape := groupCmds_only_certbot env g.1 g.2 d hdg
    rcases hc with rfl | rfl
    · exact hshape.1 rfl
    · exact hshape.2 rfl
  rw [h0]
  rcases hc with rfl | rfl <;> decide

theorem exec_trace_count_le (env : OrchEnv) (domains : List String) (c : Cmd)
    (hc : c = Cmd.nginxTest ∨ c = Cmd.nginxReload) :
    ((execAll env (orchCmds env domains)).1).count (c, true) ≤ 1 := by
  obtain ⟨n, hn⟩ := execAll_trace_take env (orchCmds env domains)
  rw [hn, List.map_take]
  calc (((orchCmds env domains).map (fun d => (d, true))).take n).count (c, true)
      ≤ ((orchCmds env domains).map (fun d => (d, true))).count (c, true) :=
        (List.take_sublist n _).count_le (c, true)
    _ = 1 := orch_map_count env domains c hc

/-- A concrete orchestrator run in which every checked command succeeds but
the unchecked public-IP `curl` exits with status 7. -/
def c4Env : OrchEnv where
  proxyFileExists := true
  domainFileExists := true
  domainFileLines := ["a.com"]
  cmdExit := fun _ => 0
  curlExit := 7
  pubIp := ""
  resolveA := fun _ => ""
  certExists := fun _ => false
  email := "e@x"
  doStaging := true
  doProd := false
  forceProd := false
  checkA := false

/-- Counterexample to C4 as stated: the `curl` public-IP lookup is an
external command invocation of the orchestrator (deploy.py line 93, run
without `check=True`); in this run it returns exit status 7, yet the
orchestrator completes normally instead of terminating with status 7. -/
theorem c4_unchecked_curl_counterexample :
    (Cmd.curlPublicIp, false) ∈ (mainRun c4Env).1 ∧
    c4Env.curlExit = 7 ∧
    (mainRun c4Env).2 = Outcome.done ∧
    (mainRun c4Env).2 ≠ Outcome.cmdFailed c4Env.curlExit := by decide

/-- C4 (amended): every external command invocation run through `sh` with
checking (all of `docker compose up`, the certbot calls, `nginx -t`,
`nginx -s reload`) that returns non-zero terminates the orchestrator with
that same status; the validate and reload commands are attempted at most
once per run; and a run that completes normally issued exactly the full
command list — every group's commands, then validate, then reload, each of
the latter exactly once, after the full group loop. -/
theorem c4_checked_fail_propagates (env : OrchEnv) :
    (∀ c : Cmd, (c, true) ∈ (mainRun env).1 → env.cmdExit c ≠ 0 →
      (mainRun env).2 = Outcome.cmdFailed (env.cmdExit c)) ∧
    ((mainRun env).1.count (Cmd.nginxTest, true) ≤ 1) ∧
    ((mainRun env).1.count (Cmd.nginxReload, true) ≤ 1) ∧
    (∀ domains, read_domains env.domainFileExists env.domainFileLines =
        Except.ok domains →
      (mainRun env).2 = Outcome.done →
      (mainRun env).1 = [(Cmd.composeUp, true), (Cmd.curlPublicIp, false)]
        ++ (orchCmds env domains).map (fun c => (c, true))) := by
  refine ⟨?_, ?_, ?_, ?_⟩
  · intro c hc hne
    by_cases h1 : env.proxyFileExists = false
    · simp only [mainRun, if_pos h1] at hc
      simp at hc
    · by_cases h2 : env.cmdExit Cmd.composeUp ≠ 0
      · simp only [mainRun, if_neg h1, if_pos h2] at hc ⊢
        rw [List.mem_singleton, Prod.mk.injEq] at hc
        obtain ⟨rfl, -⟩ := hc
        rfl
      · cases hrd : read_domains env.domainFileExists env.domainFileLines with
        | error msg =>
          simp only [mainRun, if_neg h1, if_neg h2, hrd] at hc
          rcases List.mem_cons.mp hc with heq | hc2
          · rw [Prod.mk.injEq] at heq
            obtain ⟨rfl, -⟩ := heq
            exact absurd (not_not.mp h2) hne
          · rw [List.mem_singleton, Prod.mk.injEq] at hc2
            exact absurd hc2.2 (by simp)
        | ok domains =>
          simp only [mainRun, if_neg h1, if_neg h2, hrd] at hc ⊢
          rw [List.mem_append] at hc
          rcases hc with hc | hexec
          · rcases List.mem_cons.mp hc with heq | hc2
            · rw [Prod.mk.injEq] at heq
              obtain ⟨rfl, -⟩ := heq
              exact absurd (not_not.mp h2) hne
            · rw [List.mem_singleton, Prod.mk.injEq] at hc2
              exact absurd hc2.2 (by simp)
          · rw [execAll_checked_fail env (orchCmds env domains) c hexec hne]
  · by_cases h1 : env.proxyFileExists = false
    · simp only [mainRun, if_pos h1]
      decide
    · by_cases h2 : env.cmdExit Cmd.composeUp ≠ 0
      · simp only [mainRun, if_neg h1, if_pos h2]
        decide
      · cases hrd : read_domains env.domainFileExists env.domainFileLines with
        | error msg =>
          simp only [mainRun, if_neg h1, if_neg h2, hrd]
          decide
        | ok domains =>
          simp only [mainRun, if_neg h1, if_neg h2, hrd, List.count_append]
          have hpre : ([(Cmd.composeUp, true), (Cmd.curlPublicIp, false)]).count
              (Cmd.nginxTest, true) = 0 := by decide
          rw [hpre]
          simpa using exec_trace_count_le env domains Cmd.nginxTest (Or.inl rfl)
  · by_cases h1 : env.proxyFileExists = false
    · simp only [mainRun, if_pos h1]
      decide
    · by_cases h2 : env.cmdExit Cmd.composeUp ≠ 0
      · simp only [mainRun, if_neg h1, if_pos h2]
        decide
      · cases hrd : read_domains env.domainFileExists env.domainFileLines with
        | error msg =>
          simp only [mainRun, if_neg h1, if_neg h2, hrd]
          decide
        | ok domains =>
          simp only [mainRun, if_neg h1, if_neg h2, hrd, List.count_append]
          have hpre : ([(Cmd.composeUp, true), (Cmd.curlPublicIp, false)]).count
              (Cmd.nginxReload, true) = 0 := by decide
          rw [hpre]
          simpa using exec_trace_count_le env domains Cmd.nginxReload (Or.inr rfl)
  · intro domains hrd hdone
    by_cases h1 : env.proxyFileExists = false
    · simp only [mainRun, if_pos h1] at hdone
      simp at hdone
    · by_cases h2 : env.cmdExit Cmd.composeUp ≠ 0
      · simp only [mainRun, if_neg h1, if_pos h2] at hdone
        simp at hdone
      · simp only [mainRun, if_neg h1, if_neg h2, hrd] at hdone ⊢
        cases hr2 : (execAll env (orchCmds env domains)).2 with
        | none => rw [execAll_success_trace env (orchCmds env domains) hr2]
        | some code =>
          rw [hr2] at hdone
          simp at hdone

/-- A concrete orchestrator configuration where DNS resolution and the
public-IP lookup both return the empty string, so the two are equal, and
every issuance toggle would otherwise lead to a certbot call. -/
def c7SkipEnv : OrchEnv where
  proxyFileExists := true
  domainFileExists := true
  domainFileLines := ["a.com"]
  cmdExit := fun _ => 0
  curlExit := 0
  pubIp := ""
  resolveA := fun _ => ""
  certExists := fun _ => false
  email := "e@x"
  doStaging := true
  doProd := true
  forceProd := false
  checkA := true

/-- Counterexample to C7 as stated: with resolved address `""` and public
IPv4 `""` the two are equal, yet the group is skipped and no issuance
command is produced — so "proceeds exactly when the resolved address equals
the public IPv4" fails at this input. -/
theorem c7_empty_equal_counterexample :
    c7SkipEnv.checkA = true ∧
    c7SkipEnv.resolveA "a.com" = c7SkipEnv.pubIp ∧
    c7SkipEnv.doStaging = true ∧
    c7SkipEnv.certExists ("a.com" ++ "-staging") = false ∧
    groupCmds c7SkipEnv "a.com" ["a.com"] = [] := by decide

/-- C7 (amended): with DNS verification enabled and a non-empty member
list, a group produces no issuance command whenever the resolved address is
empty, the public IPv4 is empty, or the two differ; and it proceeds to
issuance exactly when the resolved address is non-empty and equals the
public IPv4 — in particular the staging certbot invocation is then issued
when staging is enabled and no record exists. -/
theorem c7_dns_gate (env : OrchEnv) (apex : String) (names : List String)
    (hn : names ≠ []) (hca : env.checkA = true) :
    ((env.resolveA apex = "" ∨ env.pubIp = "" ∨ env.resolveA apex ≠ env.pubIp) →
      groupCmds env apex names = []) ∧
    (env.resolveA apex ≠ "" → env.resolveA apex = env.pubIp →
      groupCmds env apex names = issuanceCmds env apex names) ∧
    (env.resolveA apex ≠ "" → env.resolveA apex = env.pubIp →
      env.doStaging = true → env.certExists (apex ++ "-staging") = false →
      certbotStaging env apex names ∈ groupCmds env apex names) := by
  have hmain : ∀ h : (env.resolveA apex ≠ "" ∧ env.resolveA apex = env.pubIp),
      groupCmds env apex names = issuanceCmds env apex names := by
    intro h
    have hskip : dnsSkip (env.resolveA apex) env.pubIp = false := by
      have hp : env.pubIp ≠ "" := h.2 ▸ h.1
      simp [dnsSkip, h.1, h.2, hp]
    unfold groupCmds
    rw [if_neg hn, hca, hskip]
    simp
  refine ⟨?_, fun h1 h2 => hmain ⟨h1, h2⟩, fun h1 h2 hds hce => ?_⟩
  · intro hdisj
    have hskip : dnsSkip (env.resolveA apex) env.pubIp = true := by
      rcases hdisj with h | h | h <;> simp [dnsSkip, h]
    unfold groupCmds
    rw [if_neg hn, hca, hskip]
    simp
  · rw [hmain ⟨h1, h2⟩]
    unfold issuanceCmds
    rw [hds, hce]
    simp

/-- Witness for C7 at the spec's own example: resolved `"1.2.3.4"` equals
public `"1.2.3.4"`. -/
def c7ProceedEnv : OrchEnv where
  proxyFileExists := true
  domainFileExists := true
  domainFileLines := ["a.com"]
  cmdExit := fun _ => 0
  curlExit := 0
  pubIp := "1.2.3.4"
  resolveA := fun _ => "1.2.3.4"
  certExists := fun _ => false
  email := "e@x"
  doStaging := true
  doProd := false
  forceProd := false
  checkA := true

/-- Witness for C7: at the concrete proceeding environment the gate passes
and the staging issuance command is produced. -/
theorem c7_dns_gate_witness :
    ((c7ProceedEnv.resolveA "a.com" = "" ∨ c7ProceedEnv.pubIp = "" ∨
        c7ProceedEnv.resolveA "a.com" ≠ c7ProceedEnv.pubIp) →
      groupCmds c7ProceedEnv "a.com" ["a.com"] = []) ∧
    (c7ProceedEnv.resolveA "a.com" ≠ "" →
      c7ProceedEnv.resolveA "a.com" = c7ProceedEnv.pubIp →
      groupCmds c7ProceedEnv "a.com" ["a.com"] =
        issuanceCmds c7ProceedEnv "a.com" ["a.com"]) ∧
    (c7ProceedEnv.resolveA "a.com" ≠ "" →
      c7ProceedEnv.resolveA "a.com" = c7ProceedEnv.pubIp →
      c7ProceedEnv.doStaging = true →
      c7ProceedEnv.certExists ("a.com" ++ "-staging") = false →
      certbotStaging c7ProceedEnv "a.com" ["a.com"] ∈
        groupCmds c7ProceedEnv "a.com" ["a.com"]) :=
  c7_dns_gate c7ProceedEnv "a.com" ["a.com"] (by decide) rfl

/-! ## C8: staging issuance idempotence -/

theorem cert_exists_issueRecord (fs : FS) (certname : String) :
    cert_exists (issueRecord fs certname) certname = true := by
  simp [cert_exists, issueRecord]

theorem stagingInvocations_zero (apex : String) :
    ∀ n (fs : FS), cert_exists fs (apex ++ "-staging") = true →
      stagingInvocations fs apex n = 0 := by
  intro n
  induction n with
  | zero => intro fs _; rfl
  | succ n ih =>
    intro fs h
    simp only [stagingInvocations, stagingStep, h, if_true]
    simpa using ih fs h

/-- C8: when the certificate record `<apex>-staging` already exists, the
staging-issuance step makes no ACME client invocation and leaves the
record store untouched; repeating the step any number of times still makes
no invocation; and from any starting store, `n` consecutive runs of the
step invoke the external client at most once. -/
theorem c8_staging_idempotent (fs : FS) (apex : String)
    (h : cert_exists fs (apex ++ "-staging") = true) :
    (stagingStep fs apex).1 = false ∧
    (stagingStep fs apex).2 = fs ∧
    (∀ n, stagingInvocations fs apex n = 0) ∧
    (∀ (g : FS) (n : Nat), stagingInvocations g apex n ≤ 1) := by
  refine ⟨by simp [stagingStep, h], by simp [stagingStep, h],
    fun n => stagingInvocations_zero apex n fs h, ?_⟩
  intro g n
  induction n generalizing g with
  | zero => simp [stagingInvocations]
  | succ n ih =>
    by_cases hg : cert_exists g (apex ++ "-staging") = true
    · simp only [stagingInvocations, stagingStep, hg, if_true]
      simpa using ih g
    · rw [Bool.not_eq_true] at hg
      simp only [stagingInvocations, stagingStep, hg, Bool.false_eq_true,
        if_false, if_true]
      have hzero : stagingInvocations (issueRecord g (apex ++ "-staging")) apex n = 0 :=
        stagingInvocations_zero apex n _ (cert_exists_issueRecord g _)
      simp [hzero]

/-- Witness for C8 at a concrete store holding both artifact files. -/
theorem c8_staging_idempotent_witness :
    (stagingStep (fun _ => some "") "a.com").1 = false ∧
    (stagingStep (fun _ => some "") "a.com").2 = (fun _ => some "") ∧
    (∀ n, stagingInvocations (fun _ => some "") "a.com" n = 0) ∧
    (∀ (g : FS) (n : Nat), stagingInvocations g "a.com" n ≤ 1) :=
  c8_staging_idempotent (fun _ => some "") "a.com" rfl

end FrontWeb
